import Mathlib

/-! CAM project server: metadata-record lifecycle and snapshot file.

A shallow embedding of the two source files of the repository:

* `index.js`: the Express route handlers `POST /pdf/create`, `DELETE /pdf/delete/:id`,
  `GET /pdf/fetch`, `GET /pdf/fetch/:id` and the error-handling middleware;
* `data.js`: `savedPdfFilesDataToFile` and `loadPdfFilesDataFromFile`.

Collaborators that are not code of the repository are made explicit:

* the MongoDB database is a finite in-memory store, a map from collection names to the
  list of documents of the collection, in insertion order; the handle `database` of the
  source is `Option Database` (`none` until `client.connect()` has resolved);
* `uuidv4()` is nondeterministic, so the values of the two calls made by the create
  handler are arguments of the handler;
* the built-ins `JSON.parse` and `JSON.stringify` are a parameter (`JSONCodec`); a small
  executable codec (`miniJSON`) instantiates it at concrete inputs;
* the snapshot file is the optional text stored under `DATA_FILE_PATH`.
-/

namespace CamServer

/-! ## JavaScript values -/

/-- JavaScript values as far as the two source files handle them. Numbers are restricted
to integers (doubles are not modelled). Arrays and objects are finite trees; an object is
the list of its own properties in insertion order. -/
inductive JSValue where
  | undefined
  | null
  | bool (b : Bool)
  | number (n : Int)
  | string (s : String)
  | array (xs : List JSValue)
  | object (fields : List (String × JSValue))
  deriving Repr, Inhabited

mutual
/-- Structural equality test on values (deep equality). -/
def JSValue.beq : JSValue → JSValue → Bool
  | .undefined, .undefined => true
  | .null, .null => true
  | .bool a, .bool b => a == b
  | .number a, .number b => a == b
  | .string a, .string b => a == b
  | .array xs, .array ys => JSValue.beqList xs ys
  | .object fs, .object gs => JSValue.beqFields fs gs
  | _, _ => false
/-- Deep equality of two arrays, element by element. -/
def JSValue.beqList : List JSValue → List JSValue → Bool
  | [], [] => true
  | x :: xs, y :: ys => JSValue.beq x y && JSValue.beqList xs ys
  | _, _ => false
/-- Deep equality of two property lists, property by property. -/
def JSValue.beqFields : List (String × JSValue) → List (String × JSValue) → Bool
  | [], [] => true
  | (k, x) :: xs, (l, y) :: ys => k == l && JSValue.beq x y && JSValue.beqFields xs ys
  | _, _ => false
end

mutual
/-- A JSON value: `null`, a boolean, a number, a string, an array of JSON values, or an
object with pairwise distinct property names whose values are JSON values. These are the
values that `JSON.stringify` writes in full and `JSON.parse` builds. -/
def JSValue.isJSON : JSValue → Bool
  | .undefined => false
  | .null => true
  | .bool _ => true
  | .number _ => true
  | .string _ => true
  | .array xs => JSValue.allJSON xs
  | .object fs => JSValue.fieldsJSON fs
/-- Every element is a JSON value. -/
def JSValue.allJSON : List JSValue → Bool
  | [] => true
  | x :: xs => JSValue.isJSON x && JSValue.allJSON xs
/-- Every property value is a JSON value and no property name is repeated. -/
def JSValue.fieldsJSON : List (String × JSValue) → Bool
  | [] => true
  | (k, x) :: fs => JSValue.isJSON x && !(fs.any fun f => f.1 == k) && JSValue.fieldsJSON fs
end

/-- The built-ins `JSON.stringify` and `JSON.parse`. They are not code of the repository,
so the handlers and the snapshot functions take them as a parameter. `parse` returns the
message of the `SyntaxError` it throws on text that is not valid JSON. `stringify` is only
ever applied to an array by the source, for which it returns a string. -/
structure JSONCodec where
  stringify : JSValue → String
  parse : String → Except String JSValue

/-! ## Errors and responses (`index.js`) -/

/-- An error value as the error-handling middleware reads it: its `status` and `message`
properties (`none` when the property is absent). -/
structure JSError where
  status : Option Int
  message : Option String
  deriving Repr, DecidableEq

/-- The call `createError(status, message)` of `http-errors`, for the status codes the
source passes (400, 404, 500): an error carrying that status and message. -/
def createError (status : Int) (message : String) : JSError :=
  { status := some status, message := some message }

/-- The call `new Error(message)`, and likewise the `SyntaxError` thrown by `JSON.parse`:
an error with a message and no `status` property. -/
def newError (message : String) : JSError :=
  { status := none, message := some message }

/-- An HTTP response: the status code and the body that was sent. -/
structure Response where
  statusCode : Int
  body : JSValue
  deriving Repr

/-- The expression `err.status || 500`: the status when it is present and truthy
(non-zero), and 500 otherwise. -/
def statusOrDefault (err : JSError) : Int :=
  match err.status with
  | some s => if s = 0 then 500 else s
  | none => 500

/-- The expression `err.message || "Internal Server Error"`: the message when it is present
and truthy (non-empty), and the default text otherwise. -/
def messageOrDefault (err : JSError) : String :=
  match err.message with
  | some m => if m = "" then "Internal Server Error" else m
  | none => "Internal Server Error"

/-- The error-handling middleware `app.use((err, req, res, next) => ...)` of `index.js`
(lines 215-228): builds `{status, message}` and sends it with `res.status(err.status || 500)`. -/
def errorHandler (err : JSError) : Response :=
  let error := JSValue.object
    [("status", .number (statusOrDefault err)), ("message", .string (messageOrDefault err))]
  { statusCode := statusOrDefault err, body := error }

/-- How a route handler ends: it sent a response (`res.send`, `res.json`; the status code
is the default 200), it called `next(err)`, or an exception escaped it, so that the promise
of the `async` handler is rejected. -/
inductive Outcome where
  | sent (body : JSValue)
  | next (err : JSError)
  | rejected (err : JSError)
  deriving Repr

/-- The response the caller receives. `next(err)` reaches the error-handling middleware.
A rejected handler promise is not observed by the router (Express 4 ignores the value an
`async` handler returns), so no response is produced by the application. -/
def Outcome.response : Outcome → Option Response
  | .sent body => some { statusCode := 200, body := body }
  | .next err => some (errorHandler err)
  | .rejected _ => none

/-! ## The Metadata Store (MongoDB collaborator) -/

/-- A stored document: its fields in order. The primary key is the field `_id`. -/
abbrev Document := List (String × JSValue)

/-- A collection: its documents in insertion (natural) order. -/
abbrev Collection := List Document

/-- The database `client.db("test")`: every collection name denotes a collection, empty
until something is inserted. -/
abbrev Database := String → Collection

/-- The filter `{ _id: id }` with a string `id` (a route parameter): the document matches
when its `_id` field is that string. -/
def matchesId (id : String) (d : Document) : Bool :=
  match d.lookup "_id" with
  | some (.string s) => s == id
  | _ => false

/-- The call `collection.findOne({ _id: id })`: the first matching document, or `null`. -/
def findOne (coll : Collection) (id : String) : Option Document :=
  coll.find? (matchesId id)

/-- The call `collection.find({}).toArray()`: every document of the collection. -/
def findAll (coll : Collection) : List Document := coll

/-- The call `collection.deleteOne({ _id: id })`: removes the first matching document and
reports `deletedCount` (0 or 1). -/
def deleteOne : Collection → String → Collection × Nat
  | [], _ => ([], 0)
  | d :: ds, id =>
    if matchesId id d then (ds, 1)
    else ((d :: (deleteOne ds id).1), (deleteOne ds id).2)

/-- Whether two documents carry the same primary key. -/
def sameKey (a b : Document) : Bool :=
  match a.lookup "_id", b.lookup "_id" with
  | some x, some y => JSValue.beq x y
  | _, _ => false

/-- The call `collection.insertOne(doc)` for a document that carries an `_id`: rejected
with a duplicate-key error when the collection already holds that `_id`, appended
otherwise. -/
def insertOne (coll : Collection) (doc : Document) : Except JSError Collection :=
  if coll.any (sameKey doc) then .error (newError "E11000 duplicate key error")
  else .ok (coll ++ [doc])

/-- A call issued to the Metadata Store by a handler. -/
inductive StoreCall where
  | insertOne (collection : String) (doc : Document)
  | deleteOne (collection : String) (id : String)
  | find (collection : String)
  | findOne (collection : String) (id : String)
  deriving Repr

/-- What running a handler produces: how the handler ended, the connection handle and
store afterwards, and the store calls it issued, in order. -/
structure Result where
  outcome : Outcome
  database : Option Database
  calls : List StoreCall

/-! ## Upload middleware (`multer`) -/

/-- The object `req.file` that `upload.single("file")` leaves on the request. -/
structure UploadedFile where
  originalname : String
  path : String
  deriving Repr, DecidableEq

/-- The `destination` callback of `storage` (line 33). -/
def destination : String := "uploads/"

/-- The `filename` callback of `storage` (line 36): the original name, unchanged. -/
def filename (originalname : String) : String := originalname

/-- The middleware `upload.single("file")` with the disk storage of lines 31-40: when the
form carries a file part, the file is written under `destination` with name `filename` and
`req.file.path` is the two joined; without a file part `req.file` stays undefined. -/
def uploadSingle (part : Option String) : Option UploadedFile :=
  part.map fun originalname =>
    { originalname := originalname, path := destination ++ filename originalname }

/-- A `POST /pdf/create` request: the original name of the uploaded file part, if there
is one, and the form field `metadata`, if there is one. -/
structure CreateRequest where
  filePart : Option String
  metadata : Option String
  deriving Repr

/-! ## Route handlers (`index.js`) -/

/-- The argument of `JSON.parse(req.body.metadata)` as a string: an absent field is
`undefined`, which `JSON.parse` converts to the text `undefined`. -/
def metadataText (metadata : Option String) : String :=
  metadata.getD "undefined"

/-- The handler of `POST /pdf/create` (lines 62-113). `uuid₁` and `uuid₂` are the values
of the two `uuidv4()` calls, in order: the first is bound to `id` (line 69), the second
becomes the `_id` of the document (line 93). `JSON.parse` (line 95) runs outside the
`try` block, so its exception escapes the handler. -/
def postPdfCreate (json : JSONCodec) (database : Option Database) (req : CreateRequest)
    (uuid₁ uuid₂ : String) : Result :=
  match uploadSingle req.filePart with
  | none =>
    { outcome := .next (createError 400 "No file uploaded"), database := database, calls := [] }
  | some file =>
    let id := uuid₁
    match json.parse (metadataText req.metadata) with
    | .error e => { outcome := .rejected (newError e), database := database, calls := [] }
    | .ok parsed =>
      let metadata : Document :=
        [("_id", .string uuid₂), ("content_path", .string file.path), ("metadata", parsed)]
      match database with
      | none =>
        { outcome := .next (createError 500 "Internal Server Error"),
          database := none, calls := [] }
      | some db =>
        match insertOne (db "books1234") metadata with
        | .error _ =>
          { outcome := .next (createError 500 "Internal Server Error"),
            database := some db, calls := [.insertOne "books1234" metadata] }
        | .ok coll =>
          { outcome := .sent (.object [("success", .bool true), ("id", .string id)]),
            database := some (Function.update db "books1234" coll),
            calls := [.insertOne "books1234" metadata] }

/-- The handler of `DELETE /pdf/delete/:id` (lines 131-151). -/
def deletePdf (database : Option Database) (id : String) : Result :=
  match database with
  | none =>
    { outcome := .next (createError 500 "Internal Server Error"), database := none, calls := [] }
  | some db =>
    let result := deleteOne (db "books") id
    let db := Function.update db "books" result.1
    if result.2 = 0 then
      { outcome := .next (createError 404 "PDF not found"),
        database := some db, calls := [.deleteOne "books" id] }
    else
      { outcome := .sent (.object [("success", .bool true),
          ("message", .string "PDF file deleted successfully")]),
        database := some db, calls := [.deleteOne "books" id] }

/-- The handler of `GET /pdf/fetch` (lines 159-173). -/
def fetchAllPdf (database : Option Database) : Result :=
  match database with
  | none =>
    { outcome := .next (createError 500 "Internal Server Error"), database := none, calls := [] }
  | some db =>
    let allMetaData := findAll (db "books")
    { outcome := .sent (.array (allMetaData.map JSValue.object)),
      database := some db, calls := [.find "books"] }

/-- The handler of `GET /pdf/fetch/:id` (lines 181-201). -/
def fetchPdf (database : Option Database) (id : String) : Result :=
  match database with
  | none =>
    { outcome := .next (createError 500 "Internal Server Error"), database := none, calls := [] }
  | some db =>
    match findOne (db "books") id with
    | none =>
      { outcome := .next (createError 404 "PDF not found"),
        database := some db, calls := [.findOne "books" id] }
    | some metadata =>
      { outcome := .sent (.object metadata), database := some db, calls := [.findOne "books" id] }

/-! ## Snapshot file (`data.js`) -/

/-- A JavaScript `Map`: its entries in insertion order. -/
abbrev JSMap := List (JSValue × JSValue)

/-- The key comparison of `Map` (SameValueZero): primitives are compared by value; arrays
and objects are compared by identity, and two separately built ones are never the same. -/
def sameValueZero : JSValue → JSValue → Bool
  | .undefined, .undefined => true
  | .null, .null => true
  | .bool a, .bool b => a == b
  | .number a, .number b => a == b
  | .string a, .string b => a == b
  | _, _ => false

/-- The method `Map.prototype.set`: an existing key keeps its position and gets the new
value, a new key is appended. -/
def JSMap.set : JSMap → JSValue → JSValue → JSMap
  | [], k, v => [(k, v)]
  | (k', v') :: rest, k, v =>
    if sameValueZero k' k then (k', v) :: rest else (k', v') :: JSMap.set rest k v

/-- One step of the `Map` constructor: the item must be an object, and its properties `0`
and `1` are the key and the value (`undefined` when missing); a primitive item throws a
`TypeError`. -/
def entryOf : JSValue → Except JSError (JSValue × JSValue)
  | .array xs => .ok (xs.getD 0 .undefined, xs.getD 1 .undefined)
  | .object fs => .ok ((fs.lookup "0").getD .undefined, (fs.lookup "1").getD .undefined)
  | _ => .error (newError "Iterator value is not an entry object")

/-- The loop of the `Map` constructor over the items of the iterable. -/
def addEntries : JSMap → List JSValue → Except JSError JSMap
  | m, [] => .ok m
  | m, item :: items =>
    match entryOf item with
    | .error e => .error e
    | .ok (k, v) => addEntries (JSMap.set m k v) items

/-- The constructor `new Map(iterable)`: `null` and `undefined` give the empty map, an
array is iterated, a string is iterated character by character (each one a primitive, hence
a `TypeError` unless the string is empty), anything else is not iterable. -/
def newMap : JSValue → Except JSError JSMap
  | .undefined => .ok []
  | .null => .ok []
  | .array xs => addEntries [] xs
  | .string s => if s = "" then .ok [] else .error (newError "Iterator value is not an entry object")
  | _ => .error (newError "object is not iterable")

/-- The expression `Array.from(pdfFiles.entries())`: one two-element array per entry. -/
def arrayFromEntries (m : JSMap) : JSValue :=
  .array (m.map fun e => .array [e.1, e.2])

/-- The characters `String.prototype.trim` strips: WhiteSpace and LineTerminator of
ECMAScript. -/
def isWhiteSpace (c : Char) : Bool :=
  let n := c.toNat
  n = 0x09 || n = 0x0A || n = 0x0B || n = 0x0C || n = 0x0D || n = 0x20 || n = 0xA0 ||
  n = 0x1680 || (0x2000 ≤ n && n ≤ 0x200A) || n = 0x2028 || n = 0x2029 || n = 0x202F ||
  n = 0x205F || n = 0x3000 || n = 0xFEFF

/-- The method `String.prototype.trim`. -/
def trim (s : String) : String :=
  String.mk ((((s.data.dropWhile isWhiteSpace).reverse).dropWhile isWhiteSpace).reverse)

/-- The module state of `data.js` together with the file system it touches: the variable
`pdfFiles` and the content of the file `DATA_FILE_PATH` (`none` when there is no file). -/
structure DataState where
  pdfFiles : JSMap
  file : Option String

/-- The function `savedPdfFilesDataToFile` (lines 7-10): writes the serialised entries. -/
def savedPdfFilesDataToFile (json : JSONCodec) (st : DataState) : DataState :=
  let data := json.stringify (arrayFromEntries st.pdfFiles)
  { st with file := some data }

/-- The function `loadPdfFilesDataFromFile` (lines 12-25). A missing file makes
`fs.readFile` throw; that, a `SyntaxError` of `JSON.parse` and a `TypeError` of the `Map`
constructor all end in the `catch` block, which resets `pdfFiles`. -/
def loadPdfFilesDataFromFile (json : JSONCodec) (st : DataState) : DataState :=
  match st.file with
  | none => { st with pdfFiles := [] }
  | some data =>
    if trim data = "" then st
    else
      match json.parse data with
      | .error _ => { st with pdfFiles := [] }
      | .ok entries =>
        match newMap entries with
        | .error _ => { st with pdfFiles := [] }
        | .ok m => { st with pdfFiles := m }

/-! ## A small executable JSON codec

An instance of `JSONCodec` used to evaluate the handlers on concrete requests. It covers
`null`, booleans, integers, strings with the standard escapes, arrays and objects. -/

namespace MiniJSON

/-- The lower-case hexadecimal digit of a number below 16. -/
def hexDigit (n : Nat) : Char :=
  if n < 10 then Char.ofNat (48 + n) else Char.ofNat (87 + n)

/-- The escaped form of one character inside a JSON string. -/
def escapeChar (c : Char) : List Char :=
  if c.toNat = 34 then [Char.ofNat 92, Char.ofNat 34]
  else if c.toNat = 92 then [Char.ofNat 92, Char.ofNat 92]
  else if c.toNat = 8 then [Char.ofNat 92, 'b']
  else if c.toNat = 9 then [Char.ofNat 92, 't']
  else if c.toNat = 10 then [Char.ofNat 92, 'n']
  else if c.toNat = 12 then [Char.ofNat 92, 'f']
  else if c.toNat = 13 then [Char.ofNat 92, 'r']
  else if c.toNat < 32 then
    [Char.ofNat 92, 'u', '0', '0', hexDigit (c.toNat / 16), hexDigit (c.toNat % 16)]
  else [c]

/-- A string as a JSON string literal. -/
def quote (s : String) : List Char :=
  Char.ofNat 34 :: (s.data.flatMap escapeChar ++ [Char.ofNat 34])

/-- The decimal digits of a number, most significant first, in front of `acc`; the first
argument bounds the number of digits. -/
def natText : Nat → Nat → List Char → List Char
  | 0, _, acc => acc
  | fuel + 1, n, acc =>
    if n < 10 then Char.ofNat (48 + n) :: acc
    else natText fuel (n / 10) (Char.ofNat (48 + n % 10) :: acc)

/-- An integer in decimal. -/
def intText : Int → List Char
  | .ofNat k => natText (k + 1) k []
  | .negSucc k => '-' :: natText (k + 2) (k + 1) []

/-- Joins texts with commas. -/
def commaJoin : List (List Char) → List Char
  | [] => []
  | [t] => t
  | t :: ts => t ++ ',' :: commaJoin ts

mutual
/-- The JSON text of a value in the position of an array element or property value
(`undefined` is written `null` in an array). -/
def write : JSValue → List Char
  | .undefined => ['n', 'u', 'l', 'l']
  | .null => ['n', 'u', 'l', 'l']
  | .bool b => if b then ['t', 'r', 'u', 'e'] else ['f', 'a', 'l', 's', 'e']
  | .number n => intText n
  | .string s => quote s
  | .array xs => '[' :: (commaJoin (writeElements xs) ++ [']'])
  | .object fs => Char.ofNat 123 :: (commaJoin (writeMembers fs) ++ [Char.ofNat 125])
/-- The texts of the elements of an array. -/
def writeElements : List JSValue → List (List Char)
  | [] => []
  | x :: xs => write x :: writeElements xs
/-- The texts of the properties of an object; a property whose value is `undefined` is
left out. -/
def writeMembers : List (String × JSValue) → List (List Char)
  | [] => []
  | (_, .undefined) :: fs => writeMembers fs
  | (k, x) :: fs => (quote k ++ ':' :: write x) :: writeMembers fs
end

/-- Skips JSON white space (space, tab, line feed, carriage return). -/
def skipWs : List Char → List Char
  | [] => []
  | c :: cs =>
    if c.toNat = 32 || c.toNat = 9 || c.toNat = 10 || c.toNat = 13 then skipWs cs else c :: cs

/-- Consumes the given characters, or fails. -/
def expect : List Char → List Char → Option (List Char)
  | [], cs => some cs
  | _ :: _, [] => none
  | e :: es, c :: cs => if e = c then expect es cs else none

/-- The value of a hexadecimal digit. -/
def hexValue (c : Char) : Option Nat :=
  let n := c.toNat
  if 48 ≤ n && n ≤ 57 then some (n - 48)
  else if 97 ≤ n && n ≤ 102 then some (n - 87)
  else if 65 ≤ n && n ≤ 70 then some (n - 55)
  else none

/-- Where the reader of a string literal stands: in plain text, right after a backslash,
or inside a `u` escape with `digits` hexadecimal digits still to come and `value` read
so far. -/
inductive StringState where
  | plain
  | escape
  | hex (digits : Nat) (value : Nat)

/-- Reads a string literal after its opening quote; `acc` holds the characters read so
far, last one first. -/
def readString : StringState → List Char → List Char → Option (String × List Char)
  | _, [], _ => none
  | .plain, c :: cs, acc =>
    if c.toNat = 34 then some (String.mk acc.reverse, cs)
    else if c.toNat = 92 then readString .escape cs acc
    else if c.toNat < 32 then none
    else readString .plain cs (c :: acc)
  | .escape, e :: cs, acc =>
    if e.toNat = 34 || e.toNat = 92 || e = '/' then readString .plain cs (e :: acc)
    else if e = 'b' then readString .plain cs (Char.ofNat 8 :: acc)
    else if e = 't' then readString .plain cs (Char.ofNat 9 :: acc)
    else if e = 'n' then readString .plain cs (Char.ofNat 10 :: acc)
    else if e = 'f' then readString .plain cs (Char.ofNat 12 :: acc)
    else if e = 'r' then readString .plain cs (Char.ofNat 13 :: acc)
    else if e = 'u' then readString (.hex 4 0) cs acc
    else none
  | .hex digits value, h :: cs, acc =>
    match hexValue h with
    | none => none
    | some d =>
      if digits ≤ 1 then readString .plain cs (Char.ofNat (value * 16 + d) :: acc)
      else readString (.hex (digits - 1) (value * 16 + d)) cs acc

/-- Reads decimal digits, accumulating their value. -/
def readDigits : List Char → Nat → Nat × List Char
  | [], n => (n, [])
  | c :: cs, n =>
    if 48 ≤ c.toNat && c.toNat ≤ 57 then readDigits cs (n * 10 + (c.toNat - 48))
    else (n, c :: cs)

/-- Reads an unsigned integer: a single `0`, or a non-zero digit followed by digits. -/
def readNat : List Char → Option (Nat × List Char)
  | [] => none
  | c :: cs =>
    if c.toNat = 48 then some (0, cs)
    else if 49 ≤ c.toNat && c.toNat ≤ 57 then some (readDigits cs (c.toNat - 48))
    else none

/-- Sets a property of an object under construction: a repeated name keeps its position
and takes the later value. -/
def setField : List (String × JSValue) → String → JSValue → List (String × JSValue)
  | [], k, v => [(k, v)]
  | (k', v') :: fs, k, v => if k' = k then (k', v) :: fs else (k', v') :: setField fs k v

mutual
/-- Reads one JSON value; the first argument bounds the nesting of calls. -/
def parseValue : Nat → List Char → Option (JSValue × List Char)
  | 0, _ => none
  | fuel + 1, cs =>
    match skipWs cs with
    | [] => none
    | c :: rest =>
      if c = 'n' then (expect ['u', 'l', 'l'] rest).map fun r => (.null, r)
      else if c = 't' then (expect ['r', 'u', 'e'] rest).map fun r => (.bool true, r)
      else if c = 'f' then (expect ['a', 'l', 's', 'e'] rest).map fun r => (.bool false, r)
      else if c.toNat = 34 then (readString .plain rest []).map fun r => (.string r.1, r.2)
      else if c = '-' then (readNat rest).map fun r => (.number (-(r.1 : Int)), r.2)
      else if 48 ≤ c.toNat && c.toNat ≤ 57 then
        (readNat (c :: rest)).map fun r => (.number (r.1 : Int), r.2)
      else if c = '[' then
        match skipWs rest with
        | [] => none
        | d :: r => if d = ']' then some (.array [], r) else parseElements fuel (d :: r) []
      else if c.toNat = 123 then
        match skipWs rest with
        | [] => none
        | d :: r => if d.toNat = 125 then some (.object [], r) else parseMembers fuel (d :: r) []
      else none
/-- Reads the elements of an array up to the closing bracket. -/
def parseElements : Nat → List Char → List JSValue → Option (JSValue × List Char)
  | 0, _, _ => none
  | fuel + 1, cs, acc =>
    match parseValue fuel cs with
    | none => none
    | some (v, rest) =>
      match skipWs rest with
      | [] => none
      | c :: r =>
        if c = ',' then parseElements fuel r (acc ++ [v])
        else if c = ']' then some (.array (acc ++ [v]), r)
        else none
/-- Reads the properties of an object up to the closing brace. -/
def parseMembers : Nat → List Char → List (String × JSValue) → Option (JSValue × List Char)
  | 0, _, _ => none
  | fuel + 1, cs, acc =>
    match skipWs cs with
    | [] => none
    | q :: rest =>
      if q.toNat = 34 then
        match readString .plain rest [] with
        | none => none
        | some (k, r₁) =>
          match skipWs r₁ with
          | [] => none
          | colon :: r₂ =>
            if colon = ':' then
              match parseValue fuel r₂ with
              | none => none
              | some (v, r₃) =>
                match skipWs r₃ with
                | [] => none
                | c :: r₄ =>
                  if c = ',' then parseMembers fuel r₄ (setField acc k v)
                  else if c.toNat = 125 then some (.object (setField acc k v), r₄)
                  else none
            else none
      else none
end

/-- The function `JSON.parse` of the small codec: one value, then only white space. -/
def parse (s : String) : Except String JSValue :=
  match parseValue (2 * s.data.length + 2) s.data with
  | none => .error "Unexpected token in JSON"
  | some (v, rest) =>
    if skipWs rest = [] then .ok v else .error "Unexpected token in JSON"

/-- The function `JSON.stringify` of the small codec. -/
def stringify (v : JSValue) : String := String.mk (write v)

end MiniJSON

/-- The small codec as an instance of the JSON built-ins. -/
def miniJSON : JSONCodec :=
  { stringify := MiniJSON.stringify, parse := MiniJSON.parse }

/-! ## Specification vocabulary -/

/-- A mapping with string keys, given by its entries in order, as a `Map`. -/
def stringKeyed (entries : List (String × JSValue)) : JSMap :=
  entries.map fun e => (.string e.1, e.2)

namespace MiniJSON

/-- The text that follows does not continue a number. -/
def NoDigitAhead : List Char → Prop
  | [] => True
  | c :: _ => ¬ (48 ≤ c.toNat ∧ c.toNat ≤ 57)

/-- Reading back a written value with the given fuel. -/
def ValueSpec (fuel : Nat) : Prop :=
  ∀ (v : JSValue) (rest : List Char), v.isJSON = true → (write v).length + 1 ≤ fuel →
    NoDigitAhead rest → parseValue fuel (write v ++ rest) = some (v, rest)

/-- Reading back the written elements of a non-empty array with the given fuel. -/
def ElementsSpec (fuel : Nat) : Prop :=
  ∀ (x : JSValue) (xs acc : List JSValue) (rest : List Char),
    JSValue.allJSON (x :: xs) = true →
    (commaJoin (writeElements (x :: xs))).length + 2 ≤ fuel →
    parseElements fuel (commaJoin (writeElements (x :: xs)) ++ ']' :: rest) acc
      = some (.array (acc ++ x :: xs), rest)

/-- Reading back the written properties of a non-empty object with the given fuel. -/
def MembersSpec (fuel : Nat) : Prop :=
  ∀ (f : String × JSValue) (fs acc : List (String × JSValue)) (rest : List Char),
    JSValue.fieldsJSON (f :: fs) = true →
    (∀ a ∈ acc, ∀ g ∈ f :: fs, a.1 ≠ g.1) →
    (commaJoin (writeMembers (f :: fs))).length + 2 ≤ fuel →
    parseMembers fuel (commaJoin (writeMembers (f :: fs)) ++ Char.ofNat 125 :: rest) acc
      = some (.object (acc ++ f :: fs), rest)

/-- A character that starts a value: not white space and not a closing bracket. -/
def StartsValue (c : Char) : Prop :=
  c.toNat ≠ 32 ∧ c.toNat ≠ 9 ∧ c.toNat ≠ 10 ∧ c.toNat ≠ 13 ∧ c.toNat ≠ 93 ∧ c.toNat ≠ 125

end MiniJSON

/-! ## Test data -/

/-- A store with an established connection and no documents. -/
def emptyDatabase : Database := fun _ => []

/-- An upload of `manual.pdf` with the metadata text `{"title":"Manual"}`. -/
def manualRequest : CreateRequest :=
  { filePart := some "manual.pdf", metadata := some "\x7b\"title\":\"Manual\"\x7d" }

/-- An upload of `manual.pdf` whose metadata text is cut short: `{"title":`. -/
def brokenRequest : CreateRequest :=
  { filePart := some "manual.pdf", metadata := some "\x7b\"title\":" }

/-- The document the create handler builds for `manualRequest` when the second
identifier drawn is `id`. -/
def manualDocument (id : String) : Document :=
  [("_id", .string id), ("content_path", .string "uploads/manual.pdf"),
    ("metadata", .object [("title", .string "Manual")])]

/-- The body `{status, message}` of an error response. -/
def errorBody (status : Int) (message : String) : JSValue :=
  .object [("status", .number status), ("message", .string message)]

/-- No two documents of the collection carry the same `_id`. -/
def UniqueIds (coll : Collection) : Prop :=
  coll.Pairwise fun a b => sameKey a b = false

instance (coll : Collection) : Decidable (UniqueIds coll) := by
  unfold UniqueIds; infer_instance

/-- A connected store whose collection `books` holds the records `id-1` and `id-2`. -/
def twoBooks : Database :=
  Function.update emptyDatabase "books" [manualDocument "id-1", manualDocument "id-2"]

/-- Two snapshot entries: `a.pdf` with an object value and `b.pdf` with a number. -/
def twoEntries : List (String × JSValue) :=
  [("a.pdf", .object [("title", .string "Manual")]), ("b.pdf", .number (-12))]

/-! ## Lemmas on the store operations -/

theorem matchesId_unique {i j : String} {d : Document}
    (hi : matchesId i d = true) (hj : matchesId j d = true) : i = j := by
  unfold matchesId at hi hj
  split at hi
  · rename_i s hs
    rw [hs] at hj
    simp only [beq_iff_eq] at hi hj
    rw [← hi, ← hj]
  · exact absurd hi (by simp)

theorem sameKey_of_matchesId {i : String} {a b : Document}
    (ha : matchesId i a = true) (hb : matchesId i b = true) : sameKey a b = true := by
  unfold matchesId at ha hb
  unfold sameKey
  split at ha
  · rename_i s hs
    split at hb
    · rename_i t ht
      simp only [beq_iff_eq] at ha hb
      rw [hs, ht, ha, hb]
      simp [JSValue.beq]
    · exact absurd hb (by simp)
  · exact absurd ha (by simp)

theorem deleteOne_absent (coll : Collection) (id : String)
    (h : ∀ d ∈ coll, matchesId id d = false) : deleteOne coll id = (coll, 0) := by
  induction coll with
  | nil => rfl
  | cons d ds ih =>
    have hd : matchesId id d = false := h d (List.mem_cons_self d ds)
    have hds : ∀ e ∈ ds, matchesId id e = false := fun e he => h e (List.mem_cons_of_mem d he)
    simp [deleteOne, hd, ih hds]

theorem deleteOne_present (coll : Collection) (id : String)
    (h : ∃ d ∈ coll, matchesId id d = true) : (deleteOne coll id).2 = 1 := by
  induction coll with
  | nil => obtain ⟨d, hd, _⟩ := h; cases hd
  | cons d ds ih =>
    by_cases hd : matchesId id d = true
    · simp [deleteOne, hd]
    · obtain ⟨e, he, hm⟩ := h
      have hmem : e ∈ ds := by
        rcases List.mem_cons.mp he with rfl | h'
        · exact absurd hm hd
        · exact h'
      simp [deleteOne, hd, ih ⟨e, hmem, hm⟩]

theorem findOne_absent (coll : Collection) (id : String)
    (h : ∀ d ∈ coll, matchesId id d = false) : findOne coll id = none := by
  unfold findOne
  rw [List.find?_eq_none]
  intro d hd
  simp [h d hd]

theorem findOne_deleteOne_same (coll : Collection) (id : String) (hu : UniqueIds coll) :
    findOne (deleteOne coll id).1 id = none := by
  induction coll with
  | nil => rfl
  | cons d ds ih =>
    have hp := List.pairwise_cons.mp hu
    by_cases hd : matchesId id d = true
    · simp only [deleteOne, hd, if_true]
      apply findOne_absent
      intro e he
      cases hm : matchesId id e with
      | false => rfl
      | true =>
        have := hp.1 e he
        rw [sameKey_of_matchesId hd hm] at this
        cases this
    · have hd' : matchesId id d = false := by simpa using hd
      have := ih hp.2
      simp only [deleteOne, hd', findOne, List.find?] at this ⊢
      simpa [hd'] using this

theorem findOne_deleteOne_other (coll : Collection) (i j : String) (hij : j ≠ i) :
    findOne (deleteOne coll i).1 j = findOne coll j := by
  induction coll with
  | nil => rfl
  | cons d ds ih =>
    by_cases hd : matchesId i d = true
    · have hj : matchesId j d = false := by
        cases hm : matchesId j d with
        | false => rfl
        | true => exact absurd (matchesId_unique hm hd) hij
      simp [deleteOne, hd, findOne, List.find?, hj]
    · have hd' : matchesId i d = false := by simpa using hd
      simp only [findOne] at ih
      simp only [deleteOne, hd', findOne, List.find?]
      cases hm : matchesId j d with
      | false => simpa using ih
      | true => simp

theorem findOne_of_mem (coll : Collection) (j : String) (d : Document) (hu : UniqueIds coll)
    (hd : d ∈ coll) (hm : matchesId j d = true) : findOne coll j = some d := by
  induction coll with
  | nil => cases hd
  | cons e es ih =>
    have hp := List.pairwise_cons.mp hu
    rcases List.mem_cons.mp hd with rfl | hmem
    · simp [findOne, List.find?, hm]
    · cases he : matchesId j e with
      | true =>
        have := hp.1 d hmem
        rw [sameKey_of_matchesId he hm] at this
        cases this
      | false =>
        have := ih hp.2 hmem
        simp only [findOne] at this
        simp [findOne, List.find?, he, this]

/-- The create handler never touches the collection the fetch and delete handlers read:
whatever the request, the collection `books` is the same before and after. -/
theorem postPdfCreate_books_unchanged (json : JSONCodec) (db : Database) (req : CreateRequest)
    (uuid₁ uuid₂ : String) :
    ∃ db', (postPdfCreate json (some db) req uuid₁ uuid₂).database = some db' ∧
      db' "books" = db "books" := by
  unfold postPdfCreate
  cases uploadSingle req.filePart with
  | none => exact ⟨db, rfl, rfl⟩
  | some file =>
    cases json.parse (metadataText req.metadata) with
    | error e => exact ⟨db, rfl, rfl⟩
    | ok parsed =>
      simp only
      cases insertOne (db "books1234") _ with
      | error e => exact ⟨db, rfl, rfl⟩
      | ok coll =>
        refine ⟨_, rfl, ?_⟩
        have hne : "books" ≠ "books1234" := by decide
        simp [Function.update, hne]

/-! ## Claims on `index.js` -/

/-- C1 (evaluation at the failing input). On a connected, empty store the upload of
`manual.pdf` with metadata `{"title":"Manual"}` succeeds and answers with the first
identifier drawn, `id-1`; the document is inserted into the collection `books1234` under
the second identifier, `id-2`. Fetching `id-1` on the resulting store answers 404
`PDF not found`, and so does fetching `id-2`, because the fetch handler reads the
collection `books`. -/
theorem create_then_fetch_is_not_found :
    (postPdfCreate miniJSON (some emptyDatabase) manualRequest "id-1" "id-2").outcome.response
        = some ⟨200, .object [("success", .bool true), ("id", .string "id-1")]⟩ ∧
    ∃ db, (postPdfCreate miniJSON (some emptyDatabase) manualRequest "id-1" "id-2").database
        = some db ∧
      db "books1234" = [manualDocument "id-2"] ∧
      (fetchPdf (some db) "id-1").outcome.response = some ⟨404, errorBody 404 "PDF not found"⟩ ∧
      (fetchPdf (some db) "id-2").outcome.response = some ⟨404, errorBody 404 "PDF not found"⟩ :=
  ⟨rfl, _, rfl, rfl, rfl, rfl⟩

/-- C2 (evaluation at the failing input). The successful create of `manual.pdf` answers
`{success: true, id: "id-1"}`, the value of the first `uuidv4()` call, while the only
store call it issues inserts a document whose `_id` is `id-2`, the value of the second
call; the two differ, and no inserted document has the returned id as its key. -/
theorem create_returns_other_id :
    (postPdfCreate miniJSON (some emptyDatabase) manualRequest "id-1" "id-2").outcome
        = .sent (.object [("success", .bool true), ("id", .string "id-1")]) ∧
    (postPdfCreate miniJSON (some emptyDatabase) manualRequest "id-1" "id-2").calls
        = [.insertOne "books1234" (manualDocument "id-2")] ∧
    (manualDocument "id-2").lookup "_id" = some (.string "id-2") ∧
    matchesId "id-1" (manualDocument "id-2") = false :=
  ⟨rfl, rfl, rfl, by decide⟩

/-- C3 (evaluation at the failing input). With a file and the unparseable metadata text
`{"title":`, and likewise with a file and no metadata field at all, the exception of
`JSON.parse` escapes the handler: `next` is not called with a 400 error, no response is
produced, and had the exception been routed to the error-handling middleware the status
would be 500, not 400. No store call is issued and the store is unchanged. -/
theorem create_unparseable_metadata_escapes :
    (postPdfCreate miniJSON (some emptyDatabase) brokenRequest "id-1" "id-2").outcome
        = .rejected (newError "Unexpected token in JSON") ∧
    (postPdfCreate miniJSON (some emptyDatabase) brokenRequest "id-1" "id-2").outcome.response
        = none ∧
    (postPdfCreate miniJSON (some emptyDatabase) ⟨some "manual.pdf", none⟩ "id-1" "id-2").outcome
        = .rejected (newError "Unexpected token in JSON") ∧
    (errorHandler (newError "Unexpected token in JSON")).statusCode = 500 ∧
    (postPdfCreate miniJSON (some emptyDatabase) brokenRequest "id-1" "id-2").calls = [] ∧
    (postPdfCreate miniJSON (some emptyDatabase) brokenRequest "id-1" "id-2").database
        = some emptyDatabase :=
  ⟨rfl, rfl, rfl, rfl, rfl, rfl⟩

/-- C4. A create request without a file part is answered with status 400 and the body
`{status: 400, message: "No file uploaded"}`, whatever the metadata field, the connection
state, the store content and the identifiers drawn; the handler sends no success body, the
connection handle and store are unchanged and no store call is issued. -/
theorem create_without_file (json : JSONCodec) (database : Option Database)
    (metadata : Option String) (uuid₁ uuid₂ : String) :
    (postPdfCreate json database ⟨none, metadata⟩ uuid₁ uuid₂).outcome.response
        = some ⟨400, errorBody 400 "No file uploaded"⟩ ∧
    (∀ body, (postPdfCreate json database ⟨none, metadata⟩ uuid₁ uuid₂).outcome ≠ .sent body) ∧
    (postPdfCreate json database ⟨none, metadata⟩ uuid₁ uuid₂).database = database ∧
    (postPdfCreate json database ⟨none, metadata⟩ uuid₁ uuid₂).calls = [] := by
  refine ⟨rfl, ?_, rfl, rfl⟩
  intro body h
  simp [postPdfCreate, uploadSingle] at h

/-- C5. While the connection handle is not initialised, create (with a file part and
metadata text that parses), fetch-one, fetch-all and delete are each answered with status
500 and the body `{status: 500, message: "Internal Server Error"}`; none of them issues a
store call, and the handle stays uninitialised. -/
theorem store_unavailable (json : JSONCodec) (name : String) (metadata : Option String)
    (parsed : JSValue) (uuid₁ uuid₂ id : String)
    (hparse : json.parse (metadataText metadata) = .ok parsed) :
    (∀ r ∈ [postPdfCreate json none ⟨some name, metadata⟩ uuid₁ uuid₂, fetchPdf none id,
        fetchAllPdf none, deletePdf none id],
      r.outcome.response = some ⟨500, errorBody 500 "Internal Server Error"⟩ ∧
      r.calls = [] ∧ r.database = none) := by
  intro r hr
  simp only [List.mem_cons, List.mem_singleton, List.not_mem_nil, or_false] at hr
  rcases hr with rfl | rfl | rfl | rfl
  · have hcreate : postPdfCreate json none ⟨some name, metadata⟩ uuid₁ uuid₂
        = ⟨.next (createError 500 "Internal Server Error"), none, []⟩ := by
      simp [postPdfCreate, uploadSingle, hparse]
    rw [hcreate]
    exact ⟨rfl, rfl, rfl⟩
  · exact ⟨rfl, rfl, rfl⟩
  · exact ⟨rfl, rfl, rfl⟩
  · exact ⟨rfl, rfl, rfl⟩

/-- Witness of `store_unavailable`: the upload of `manual.pdf` with `{"title":"Manual"}`,
and the id `id-1`. -/
theorem store_unavailable_witness :
    miniJSON.parse (metadataText manualRequest.metadata)
        = .ok (.object [("title", .string "Manual")]) ∧
    (∀ r ∈ [postPdfCreate miniJSON none ⟨some "manual.pdf", manualRequest.metadata⟩ "id-1" "id-2",
        fetchPdf none "id-1", fetchAllPdf none, deletePdf none "id-1"],
      r.outcome.response = some ⟨500, errorBody 500 "Internal Server Error"⟩ ∧
      r.calls = [] ∧ r.database = none) :=
  ⟨rfl, store_unavailable miniJSON "manual.pdf" manualRequest.metadata
    (.object [("title", .string "Manual")]) "id-1" "id-2" "id-1" rfl⟩

/-- Delete and fetch agree on the collection `books`, which both read: when `books` has
unique `_id` values and holds a record with id `i`, the delete of `i` is answered 200 with
`{success: true, message: "PDF file deleted successfully"}`; on the resulting store the
fetch of `i` is answered 404 `PDF not found`, the fetch of any other id ends as it did
before the delete, and every record of `books` with another id is returned by the fetch of
its id. Records stored by the create handler are not in `books`. -/
theorem delete_then_fetch_in_books (db : Database) (i : String)
    (hunique : UniqueIds (db "books"))
    (hpresent : ∃ d ∈ db "books", matchesId i d = true) :
    (deletePdf (some db) i).outcome.response = some ⟨200, .object [("success", .bool true),
        ("message", .string "PDF file deleted successfully")]⟩ ∧
    ∃ db', (deletePdf (some db) i).database = some db' ∧
      (fetchPdf (some db') i).outcome.response = some ⟨404, errorBody 404 "PDF not found"⟩ ∧
      (∀ j, j ≠ i → (fetchPdf (some db') j).outcome = (fetchPdf (some db) j).outcome) ∧
      (∀ j, j ≠ i → ∀ d ∈ db "books", matchesId j d = true →
        (fetchPdf (some db') j).outcome.response = some ⟨200, .object d⟩) := by
  have hcount := deleteOne_present (db "books") i hpresent
  have hne : (deleteOne (db "books") i).2 ≠ 0 := by rw [hcount]; decide
  have hdb : (deletePdf (some db) i).database
      = some (Function.update db "books" (deleteOne (db "books") i).1) := by
    simp only [deletePdf]
    split <;> rfl
  have hother : ∀ j, j ≠ i →
      (fetchPdf (some (Function.update db "books" (deleteOne (db "books") i).1)) j).outcome
        = (fetchPdf (some db) j).outcome := by
    intro j hj
    simp only [fetchPdf, Function.update_same, findOne_deleteOne_other (db "books") i j hj]
    cases findOne (db "books") j <;> rfl
  refine ⟨?_, _, hdb, ?_, hother, ?_⟩
  · simp only [deletePdf, hne, if_false]
    rfl
  · simp only [fetchPdf, Function.update_same, findOne_deleteOne_same (db "books") i hunique]
    rfl
  · intro j hj d hd hm
    rw [hother j hj]
    simp only [fetchPdf, findOne_of_mem (db "books") j d hunique hd hm]
    rfl

/-- The lemma on `books` at a concrete store: deleting `id-1` from a collection `books`
that holds `id-1` and `id-2`. -/
theorem delete_then_fetch_in_books_example :
    UniqueIds (twoBooks "books") ∧
    (∃ d ∈ twoBooks "books", matchesId "id-1" d = true) ∧
    (deletePdf (some twoBooks) "id-1").outcome.response = some ⟨200, .object
      [("success", .bool true), ("message", .string "PDF file deleted successfully")]⟩ ∧
    ∃ db', (deletePdf (some twoBooks) "id-1").database = some db' ∧
      (fetchPdf (some db') "id-1").outcome.response
        = some ⟨404, errorBody 404 "PDF not found"⟩ ∧
      (∀ j, j ≠ "id-1" → (fetchPdf (some db') j).outcome = (fetchPdf (some twoBooks) j).outcome) ∧
      (∀ j, j ≠ "id-1" → ∀ d ∈ twoBooks "books", matchesId j d = true →
        (fetchPdf (some db') j).outcome.response = some ⟨200, .object d⟩) :=
  have hu : UniqueIds (twoBooks "books") := by decide
  have hp : ∃ d ∈ twoBooks "books", matchesId "id-1" d = true :=
    ⟨manualDocument "id-1", List.mem_cons_self _ _, by decide⟩
  ⟨hu, hp, delete_then_fetch_in_books twoBooks "id-1" hu hp⟩

/-- C6 (evaluation at the failing input). On a connected, empty store the upload of
`manual.pdf` succeeds and leaves the Metadata Store with exactly one record, whose `_id`
is `id-2`, in the collection `books1234`. The delete of that id is answered 404
`PDF not found`, not success, and so is the delete of the returned id `id-1`; the record
is still in the store afterwards. The delete handler reads the collection `books`. -/
theorem delete_created_record_is_not_found :
    ∃ db, (postPdfCreate miniJSON (some emptyDatabase) manualRequest "id-1" "id-2").database
        = some db ∧
      db "books1234" = [manualDocument "id-2"] ∧
      db "books" = [] ∧
      matchesId "id-2" (manualDocument "id-2") = true ∧
      (deletePdf (some db) "id-2").outcome.response
        = some ⟨404, errorBody 404 "PDF not found"⟩ ∧
      (deletePdf (some db) "id-1").outcome.response
        = some ⟨404, errorBody 404 "PDF not found"⟩ ∧
      ∃ db', (deletePdf (some db) "id-2").database = some db' ∧
        db' "books1234" = [manualDocument "id-2"] :=
  ⟨_, rfl, rfl, rfl, rfl, rfl, rfl, _, rfl, rfl⟩

/-- C7. On a connected store whose collection `books` holds no record with the given id,
the fetch and the delete of that id are both answered with status 404 and the body
`{status: 404, message: "PDF not found"}`, the delete handler sends no success body, and
the store after either request is the store before it. -/
theorem absent_id_not_found (db : Database) (id : String)
    (habsent : ∀ d ∈ db "books", matchesId id d = false) :
    (fetchPdf (some db) id).outcome.response = some ⟨404, errorBody 404 "PDF not found"⟩ ∧
    (fetchPdf (some db) id).database = some db ∧
    (deletePdf (some db) id).outcome.response = some ⟨404, errorBody 404 "PDF not found"⟩ ∧
    (∀ body, (deletePdf (some db) id).outcome ≠ .sent body) ∧
    (deletePdf (some db) id).database = some db := by
  have hfind := findOne_absent (db "books") id habsent
  have hdel := deleteOne_absent (db "books") id habsent
  refine ⟨?_, ?_, ?_, ?_, ?_⟩
  · simp only [fetchPdf, hfind]; rfl
  · simp only [fetchPdf, hfind]
  · simp only [deletePdf, hdel, if_true]; rfl
  · intro body h
    simp [deletePdf, hdel] at h
  · simp only [deletePdf, hdel, if_true, Function.update_eq_self]

/-- Witness of `absent_id_not_found`: the id `id-3` on a store that holds `id-1` and
`id-2`. -/
theorem absent_id_not_found_witness :
    (∀ d ∈ twoBooks "books", matchesId "id-3" d = false) ∧
    (fetchPdf (some twoBooks) "id-3").outcome.response
      = some ⟨404, errorBody 404 "PDF not found"⟩ ∧
    (fetchPdf (some twoBooks) "id-3").database = some twoBooks ∧
    (deletePdf (some twoBooks) "id-3").outcome.response
      = some ⟨404, errorBody 404 "PDF not found"⟩ ∧
    (∀ body, (deletePdf (some twoBooks) "id-3").outcome ≠ .sent body) ∧
    (deletePdf (some twoBooks) "id-3").database = some twoBooks :=
  have h : ∀ d ∈ twoBooks "books", matchesId "id-3" d = false := by decide
  ⟨h, absent_id_not_found twoBooks "id-3" h⟩

/-- C8 (evaluation at the failing input). Two successful creates on a connected, empty
store answer with the ids `id-1` and `id-3`; the fetch-all that follows answers with the
empty array, of size 0, which holds neither id: the creates insert into `books1234` and
fetch-all reads `books`. -/
theorem fetch_all_misses_created :
    (postPdfCreate miniJSON (some emptyDatabase) manualRequest "id-1" "id-2").outcome
        = .sent (.object [("success", .bool true), ("id", .string "id-1")]) ∧
    ∃ db₁, (postPdfCreate miniJSON (some emptyDatabase) manualRequest "id-1" "id-2").database
        = some db₁ ∧
      (postPdfCreate miniJSON (some db₁) manualRequest "id-3" "id-4").outcome
        = .sent (.object [("success", .bool true), ("id", .string "id-3")]) ∧
      ∃ db₂, (postPdfCreate miniJSON (some db₁) manualRequest "id-3" "id-4").database
          = some db₂ ∧
        (fetchAllPdf (some db₂)).outcome.response = some ⟨200, .array []⟩ :=
  ⟨rfl, _, rfl, rfl, _, rfl, rfl⟩

/-- C9. For every error value, the body sent by the error-handling middleware is exactly
`{status, message}`, where `status` is the status of the error when it has a non-zero one
and 500 otherwise, `message` is the message of the error when it has a non-empty one and
`Internal Server Error` otherwise, and the status code of the response is that `status`. -/
theorem errorHandler_uniform_body (err : JSError) :
    ∃ status message,
      (errorHandler err).body = .object [("status", .number status), ("message", .string message)] ∧
      (errorHandler err).statusCode = status ∧
      (∀ s, err.status = some s → s ≠ 0 → status = s) ∧
      ((err.status = none ∨ err.status = some 0) → status = 500) ∧
      (∀ m, err.message = some m → m ≠ "" → message = m) ∧
      ((err.message = none ∨ err.message = some "") → message = "Internal Server Error") := by
  refine ⟨statusOrDefault err, messageOrDefault err, rfl, rfl, ?_, ?_, ?_, ?_⟩
  · intro s hs hne
    simp [statusOrDefault, hs, hne]
  · rintro (h | h) <;> simp [statusOrDefault, h]
  · intro m hm hne
    simp [messageOrDefault, hm, hne]
  · rintro (h | h) <;> simp [messageOrDefault, h]

/-! ## The `Map` constructor on the entries array -/

theorem JSMap.set_fresh (m : JSMap) (k v : JSValue)
    (h : ∀ e ∈ m, sameValueZero e.1 k = false) : JSMap.set m k v = m ++ [(k, v)] := by
  induction m with
  | nil => rfl
  | cons e es ih =>
    obtain ⟨k', v'⟩ := e
    have hk : sameValueZero k' k = false := h (k', v') (List.mem_cons_self _ _)
    have hes : ∀ e ∈ es, sameValueZero e.1 k = false :=
      fun e he => h e (List.mem_cons_of_mem _ he)
    simp [JSMap.set, hk, ih hes]

theorem addEntries_stringKeyed (acc : List (String × JSValue)) (entries : List (String × JSValue))
    (h : ((acc ++ entries).map Prod.fst).Nodup) :
    addEntries (stringKeyed acc) ((stringKeyed entries).map fun e => .array [e.1, e.2])
      = .ok (stringKeyed (acc ++ entries)) := by
  induction entries generalizing acc with
  | nil => simp [stringKeyed, addEntries]
  | cons e es ih =>
    have hfresh : ∀ x ∈ stringKeyed acc, sameValueZero x.1 (.string e.1) = false := by
      intro x hx
      simp only [stringKeyed, List.mem_map] at hx
      obtain ⟨a, ha, rfl⟩ := hx
      simp only [sameValueZero, beq_eq_false_iff_ne, ne_eq]
      intro heq
      simp only [List.map_append, List.map_cons] at h
      have := (List.nodup_append.mp h).2.2
      exact this (List.mem_map_of_mem Prod.fst ha) (by rw [heq]; exact List.mem_cons_self _ _)
    have hset := JSMap.set_fresh (stringKeyed acc) (.string e.1) e.2 hfresh
    have hacc : stringKeyed acc ++ [(JSValue.string e.1, e.2)] = stringKeyed (acc ++ [e]) := by
      simp [stringKeyed]
    have hnodup : (((acc ++ [e]) ++ es).map Prod.fst).Nodup := by
      simpa using h
    have := ih (acc ++ [e]) hnodup
    simp only [stringKeyed, List.map_cons, addEntries, entryOf, List.getD_cons_zero,
      List.getD_cons_succ] at this ⊢
    simp only [stringKeyed] at hset hacc
    rw [hset, hacc, this]
    simp

theorem newMap_arrayFromEntries (entries : List (String × JSValue))
    (h : (entries.map Prod.fst).Nodup) :
    newMap (arrayFromEntries (stringKeyed entries)) = .ok (stringKeyed entries) := by
  have := addEntries_stringKeyed [] entries (by simpa using h)
  simpa [newMap, arrayFromEntries, stringKeyed] using this

/-! ## The small codec satisfies the laws of the JSON built-ins -/

namespace MiniJSON

theorem digit_toNat (d : Nat) (h : d < 10) : (Char.ofNat (48 + d)).toNat = 48 + d := by
  interval_cases d <;> rfl

theorem readDigits_natText (fuel n : Nat) (acc : List Char) (h : n < fuel) :
    readDigits (natText fuel n acc) 0 = readDigits acc n := by
  induction fuel generalizing n acc with
  | zero => omega
  | succ fuel ih =>
    unfold natText
    split
    · rename_i hn
      have hd : (decide (48 ≤ 48 + n) && decide (48 + n ≤ 57)) = true := by
        simp; omega
      simp only [readDigits, digit_toNat n hn, hd, if_true]
      congr 1
      omega
    · rename_i hn
      have hmod : n % 10 < 10 := Nat.mod_lt _ (by decide)
      rw [ih (n / 10) _ (by omega)]
      have hd : (decide (48 ≤ 48 + n % 10) && decide (48 + n % 10 ≤ 57)) = true := by
        simp; omega
      simp only [readDigits, digit_toNat _ hmod, hd, if_true]
      congr 1
      omega

theorem natText_head (fuel n : Nat) (acc : List Char) (h : n < fuel) (hpos : 0 < n) :
    ∃ c cs, natText fuel n acc = c :: cs ∧ 49 ≤ c.toNat ∧ c.toNat ≤ 57 := by
  induction fuel generalizing n acc with
  | zero => omega
  | succ fuel ih =>
    unfold natText
    split
    · rename_i hn
      exact ⟨_, _, rfl, by rw [digit_toNat n hn]; omega, by rw [digit_toNat n hn]; omega⟩
    · exact ih (n / 10) _ (by omega) (by omega)

theorem natText_append (fuel n : Nat) (acc rest : List Char) :
    natText fuel n acc ++ rest = natText fuel n (acc ++ rest) := by
  induction fuel generalizing n acc with
  | zero => rfl
  | succ fuel ih =>
    unfold natText
    split
    · rfl
    · rw [ih]; rfl

theorem readDigits_stop (rest : List Char) (n : Nat) (h : NoDigitAhead rest) :
    readDigits rest n = (n, rest) := by
  cases rest with
  | nil => rfl
  | cons c cs =>
    have hc : (decide (48 ≤ c.toNat) && decide (c.toNat ≤ 57)) = false := by
      simpa [NoDigitAhead] using h
    simp [readDigits, hc]

theorem readNat_natText (n : Nat) (rest : List Char) (h : NoDigitAhead rest) :
    readNat (natText (n + 1) n [] ++ rest) = some (n, rest) := by
  rw [natText_append]
  rcases Nat.eq_zero_or_pos n with rfl | hpos
  · rfl
  · obtain ⟨c, cs, hcs, hlo, hhi⟩ := natText_head (n + 1) n ([] ++ rest) (by omega) hpos
    have hread := readDigits_natText (n + 1) n ([] ++ rest) (by omega)
    rw [hcs] at hread ⊢
    have hc0 : c.toNat ≠ 48 := by omega
    have hc1 : (decide (49 ≤ c.toNat) && decide (c.toNat ≤ 57)) = true := by simp [hlo, hhi]
    have hc2 : (decide (48 ≤ c.toNat) && decide (c.toNat ≤ 57)) = true := by
      simp [hhi]; omega
    simp only [readDigits, hc2, if_true, Nat.zero_mul, Nat.zero_add] at hread
    simp only [readNat, hc0, if_false, hc1, if_true, hread]
    rw [List.nil_append, readDigits_stop _ _ h]

theorem readString_escapeChar (c : Char) (cs acc : List Char) :
    readString .plain (escapeChar c ++ cs) acc = readString .plain cs (c :: acc) := by
  have hc : c = Char.ofNat c.toNat := (Char.ofNat_toNat c).symm
  by_cases h32 : c.toNat < 32
  · generalize c.toNat = n at hc h32
    subst hc
    interval_cases n <;> rfl
  · by_cases h34 : c.toNat = 34
    · rw [h34] at hc
      subst hc
      rfl
    · by_cases h92 : c.toNat = 92
      · rw [h92] at hc
        subst hc
        rfl
      · have h8 : c.toNat ≠ 8 := by omega
        have h9 : c.toNat ≠ 9 := by omega
        have h10 : c.toNat ≠ 10 := by omega
        have h12 : c.toNat ≠ 12 := by omega
        have h13 : c.toNat ≠ 13 := by omega
        simp [escapeChar, readString, h32, h34, h92, h8, h9, h10, h12, h13]

theorem readString_quote (cs acc rest : List Char) :
    readString .plain (cs.flatMap escapeChar ++ Char.ofNat 34 :: rest) acc
      = some (String.mk (acc.reverse ++ cs), rest) := by
  induction cs generalizing acc with
  | nil => simp [readString]
  | cons c cs ih =>
    rw [List.flatMap_cons, List.append_assoc, readString_escapeChar, ih]
    simp

theorem skipWs_starts (c : Char) (cs : List Char) (h : StartsValue c) :
    skipWs (c :: cs) = c :: cs := by
  obtain ⟨h₁, h₂, h₃, h₄, _, _⟩ := h
  simp [skipWs, h₁, h₂, h₃, h₄]

theorem natText_digit_head (n : Nat) :
    ∃ c cs, natText (n + 1) n [] = c :: cs ∧ 48 ≤ c.toNat ∧ c.toNat ≤ 57 := by
  rcases Nat.eq_zero_or_pos n with rfl | hpos
  · exact ⟨_, _, rfl, by decide, by decide⟩
  · obtain ⟨c, cs, h, hlo, hhi⟩ := natText_head (n + 1) n [] (by omega) hpos
    exact ⟨c, cs, h, by omega, hhi⟩

theorem write_head (v : JSValue) : ∃ c cs, write v = c :: cs ∧ StartsValue c := by
  cases v with
  | undefined => exact ⟨_, _, rfl, by unfold StartsValue; decide⟩
  | null => exact ⟨_, _, rfl, by unfold StartsValue; decide⟩
  | bool b => cases b <;> exact ⟨_, _, rfl, by unfold StartsValue; decide⟩
  | number n =>
    cases n with
    | ofNat k =>
      obtain ⟨c, cs, h, hlo, hhi⟩ := natText_digit_head k
      refine ⟨c, cs, h, ?_⟩
      unfold StartsValue
      omega
    | negSucc k => exact ⟨_, _, rfl, by unfold StartsValue; decide⟩
  | string s => exact ⟨_, _, rfl, by unfold StartsValue; decide⟩
  | array xs =>
    exact ⟨'[', commaJoin (writeElements xs) ++ [']'], by simp [write],
      by unfold StartsValue; decide⟩
  | object fs =>
    exact ⟨Char.ofNat 123, commaJoin (writeMembers fs) ++ [Char.ofNat 125], by simp [write],
      by unfold StartsValue; decide⟩

theorem noDigitAhead_cons (c : Char) (cs : List Char)
    (h : ¬ (48 ≤ c.toNat ∧ c.toNat ≤ 57)) : NoDigitAhead (c :: cs) := h

theorem setField_fresh (acc : List (String × JSValue)) (k : String) (v : JSValue)
    (h : ∀ a ∈ acc, a.1 ≠ k) : setField acc k v = acc ++ [(k, v)] := by
  induction acc with
  | nil => rfl
  | cons a as ih =>
    obtain ⟨k', v'⟩ := a
    have hk : k' ≠ k := h (k', v') (List.mem_cons_self _ _)
    have has : ∀ a ∈ as, a.1 ≠ k := fun a ha => h a (List.mem_cons_of_mem _ ha)
    simp [setField, hk, ih has]

theorem writeMembers_cons (k : String) (x : JSValue) (fs : List (String × JSValue))
    (hx : x.isJSON = true) :
    writeMembers ((k, x) :: fs) = (quote k ++ ':' :: write x) :: writeMembers fs := by
  cases x <;> first | (simp [JSValue.isJSON] at hx; done) | simp [writeMembers]

theorem valueSpec_succ (fuel : Nat) (hE : ElementsSpec fuel) (hM : MembersSpec fuel) :
    ValueSpec (fuel + 1) := by
  intro v rest hv hfuel hrest
  cases v with
  | undefined => simp [JSValue.isJSON] at hv
  | null => rfl
  | bool b => cases b <;> rfl
  | number n =>
    cases n with
    | ofNat k =>
      obtain ⟨c, cs, h, hlo, hhi⟩ := natText_digit_head k
      have hread := readNat_natText k rest hrest
      have hstart : StartsValue c := by unfold StartsValue; omega
      have hn : c ≠ 'n' := by rintro rfl; revert hhi; decide
      have ht : c ≠ 't' := by rintro rfl; revert hhi; decide
      have hf : c ≠ 'f' := by rintro rfl; revert hhi; decide
      have hm : c ≠ '-' := by rintro rfl; revert hlo; decide
      have hq : c.toNat ≠ 34 := by omega
      have hd : (decide (48 ≤ c.toNat) && decide (c.toNat ≤ 57)) = true := by simp [hlo, hhi]
      simp only [write, intText] at hread ⊢
      rw [h] at hread ⊢
      simp only [List.cons_append] at hread ⊢
      simp only [parseValue, skipWs_starts c _ hstart, hn, ht, hf, hq, hm, hd, if_false, if_true,
        hread, Option.map]
      rfl
    | negSucc k =>
      have hread := readNat_natText (k + 1) rest hrest
      simp only [write, intText, List.cons_append]
      have hstart : StartsValue '-' := by unfold StartsValue; decide
      simp only [parseValue, skipWs_starts _ _ hstart]
      simp [hread]
      rw [Int.negSucc_eq]
      omega
  | string s =>
    have hstart : StartsValue (Char.ofNat 34) := by unfold StartsValue; decide
    have hread := readString_quote s.data [] rest
    simp only [write, quote, List.cons_append, List.append_assoc, List.singleton_append]
    simp only [parseValue, skipWs_starts _ _ hstart]
    simp [hread]
  | array xs =>
    cases xs with
    | nil => rfl
    | cons x xs =>
      obtain ⟨c, cs, hc, hstart⟩ := write_head x
      have hlen : (commaJoin (writeElements (x :: xs))).length + 2 ≤ fuel := by
        simp only [write, List.length_cons, List.length_append, List.length_nil] at hfuel
        omega
      have hparse := hE x xs [] rest (by simpa [JSValue.isJSON] using hv) hlen
      have hjoin : ∃ t, commaJoin (writeElements (x :: xs)) = c :: t := by
        cases xs with
        | nil => exact ⟨cs, by simp [writeElements, commaJoin, hc]⟩
        | cons y ys => exact ⟨_, by simp [writeElements, commaJoin, hc]; rfl⟩
      obtain ⟨t, ht⟩ := hjoin
      have hopen : StartsValue '[' := by unfold StartsValue; decide
      have hc93 : c ≠ ']' := by
        rintro rfl
        exact hstart.2.2.2.2.1 (by decide)
      simp only [write, List.cons_append, List.append_assoc, List.singleton_append]
      rw [ht] at hparse ⊢
      simp only [List.cons_append] at hparse ⊢
      simp only [parseValue, skipWs_starts _ _ hopen, skipWs_starts _ _ hstart]
      simp [hc93, hparse]
  | object fs =>
    cases fs with
    | nil => rfl
    | cons f fs =>
      obtain ⟨k, x⟩ := f
      have hv' : JSValue.fieldsJSON ((k, x) :: fs) = true := by simpa [JSValue.isJSON] using hv
      have hx : x.isJSON = true := by
        simp only [JSValue.fieldsJSON, Bool.and_eq_true] at hv'
        exact hv'.1.1
      have hlen : (commaJoin (writeMembers ((k, x) :: fs))).length + 2 ≤ fuel := by
        simp only [write, List.length_cons, List.length_append, List.length_nil] at hfuel
        omega
      have hparse := hM (k, x) fs [] rest hv' (by intro a ha; cases ha) hlen
      have hjoin : ∃ t, commaJoin (writeMembers ((k, x) :: fs)) = Char.ofNat 34 :: t := by
        rw [writeMembers_cons k x fs hx]
        cases writeMembers fs with
        | nil => exact ⟨_, by simp [commaJoin, quote]; rfl⟩
        | cons y ys => exact ⟨_, by simp [commaJoin, quote]; rfl⟩
      obtain ⟨t, ht⟩ := hjoin
      have hopen : StartsValue (Char.ofNat 123) := by unfold StartsValue; decide
      have hquote : StartsValue (Char.ofNat 34) := by unfold StartsValue; decide
      simp only [write, List.cons_append, List.append_assoc, List.singleton_append]
      rw [ht] at hparse ⊢
      simp only [List.cons_append] at hparse ⊢
      simp only [parseValue, skipWs_starts _ _ hopen, skipWs_starts _ _ hquote]
      simp [hparse]

theorem elementsSpec_succ (fuel : Nat) (hV : ValueSpec fuel) (hE : ElementsSpec fuel) :
    ElementsSpec (fuel + 1) := by
  intro x xs acc rest hall hfuel
  have hx : x.isJSON = true := by
    simp only [JSValue.allJSON, Bool.and_eq_true] at hall
    exact hall.1
  have hcomma : StartsValue ',' := by unfold StartsValue; decide
  cases xs with
  | nil =>
    have hlen : (write x).length + 1 ≤ fuel := by
      simp only [writeElements, commaJoin] at hfuel
      omega
    have hparse := hV x (']' :: rest) hx hlen (noDigitAhead_cons _ _ (by decide))
    simp only [writeElements, commaJoin]
    simp only [parseElements, hparse]
    rfl
  | cons y ys =>
    have hys : JSValue.allJSON (y :: ys) = true := by
      simp only [JSValue.allJSON, Bool.and_eq_true] at hall ⊢
      exact hall.2
    have hjoin : commaJoin (writeElements (x :: y :: ys))
        = write x ++ ',' :: commaJoin (writeElements (y :: ys)) := by
      simp [writeElements, commaJoin]
    rw [hjoin] at hfuel ⊢
    simp only [List.length_append, List.length_cons] at hfuel
    have hparse := hV x (',' :: (commaJoin (writeElements (y :: ys)) ++ ']' :: rest)) hx
      (by omega) (noDigitAhead_cons _ _ (by decide))
    have hrec := hE y ys (acc ++ [x]) rest hys (by omega)
    simp only [List.append_assoc, List.cons_append]
    simp only [parseElements, hparse, skipWs_starts _ _ hcomma, if_true, hrec]
    simp

theorem membersSpec_succ (fuel : Nat) (hV : ValueSpec fuel) (hM : MembersSpec fuel) :
    MembersSpec (fuel + 1) := by
  intro f fs acc rest hall hacc hfuel
  obtain ⟨k, x⟩ := f
  have hx : x.isJSON = true := by
    simp only [JSValue.fieldsJSON, Bool.and_eq_true] at hall
    exact hall.1.1
  have hk : ∀ g ∈ fs, g.1 ≠ k := by
    simp only [JSValue.fieldsJSON, Bool.and_eq_true, Bool.not_eq_true', List.any_eq_false,
      beq_iff_eq] at hall
    exact fun g hg => hall.1.2 g hg
  have hfs : JSValue.fieldsJSON fs = true := by
    simp only [JSValue.fieldsJSON, Bool.and_eq_true] at hall
    exact hall.2
  have hset : setField acc k x = acc ++ [(k, x)] :=
    setField_fresh acc k x fun a ha => hacc a ha (k, x) (List.mem_cons_self _ _)
  have hquote : StartsValue (Char.ofNat 34) := by unfold StartsValue; decide
  have hcolon : StartsValue ':' := by unfold StartsValue; decide
  have hcomma : StartsValue ',' := by unfold StartsValue; decide
  have hclose : skipWs (Char.ofNat 125 :: rest) = Char.ofNat 125 :: rest := rfl
  have hkey := fun tail => readString_quote k.data [] tail
  rw [writeMembers_cons k x fs hx] at hfuel ⊢
  cases fs with
  | nil =>
    simp only [writeMembers, commaJoin, List.length_append, List.length_cons] at hfuel
    have hparse := hV x (Char.ofNat 125 :: rest) hx (by omega)
      (noDigitAhead_cons _ _ (by decide))
    simp only [writeMembers, commaJoin, quote, List.cons_append, List.append_assoc,
      List.singleton_append]
    simp only [parseMembers, skipWs_starts _ _ hquote, hkey, List.nil_append, List.reverse_nil,
      skipWs_starts _ _ hcolon, hparse, hclose]
    simp [hset]
  | cons g gs =>
    obtain ⟨l, y⟩ := g
    have hy : y.isJSON = true := by
      simp only [JSValue.fieldsJSON, Bool.and_eq_true] at hfs
      exact hfs.1.1
    have hjoin : commaJoin ((quote k ++ ':' :: write x) :: writeMembers ((l, y) :: gs))
        = quote k ++ ':' :: (write x ++ ',' :: commaJoin (writeMembers ((l, y) :: gs))) := by
      rw [writeMembers_cons l y gs hy]
      simp [commaJoin]
    rw [hjoin] at hfuel ⊢
    simp only [List.length_append, List.length_cons] at hfuel
    have hparse := hV x (',' :: (commaJoin (writeMembers ((l, y) :: gs))
      ++ Char.ofNat 125 :: rest)) hx (by omega) (noDigitAhead_cons _ _ (by decide))
    have hacc' : ∀ a ∈ acc ++ [(k, x)], ∀ g ∈ (l, y) :: gs, a.1 ≠ g.1 := by
      intro a ha g hg
      rcases List.mem_append.mp ha with ha | ha
      · exact hacc a ha g (List.mem_cons_of_mem _ hg)
      · rw [List.mem_singleton.mp ha]
        exact fun h => hk g hg h.symm
    have hrec := hM (l, y) gs (acc ++ [(k, x)]) rest hfs hacc' (by omega)
    simp only [quote, List.cons_append, List.append_assoc, List.singleton_append]
    simp only [parseMembers, skipWs_starts _ _ hquote, hkey, List.nil_append, List.reverse_nil,
      skipWs_starts _ _ hcolon, hparse, skipWs_starts _ _ hcomma]
    simp [hset, hrec]

theorem write_spec (fuel : Nat) : ValueSpec fuel ∧ ElementsSpec fuel ∧ MembersSpec fuel := by
  induction fuel with
  | zero =>
    refine ⟨?_, ?_, ?_⟩
    · intro v rest _ h; omega
    · intro x xs acc rest _ h; omega
    · intro f fs acc rest _ _ h; omega
  | succ fuel ih =>
    exact ⟨valueSpec_succ fuel ih.2.1 ih.2.2, elementsSpec_succ fuel ih.1 ih.2.1,
      membersSpec_succ fuel ih.1 ih.2.2⟩

theorem parse_stringify (v : JSValue) (hv : v.isJSON = true) :
    parse (stringify v) = .ok v := by
  have h := (write_spec (2 * (write v).length + 2)).1 v [] hv (by omega) trivial
  rw [List.append_nil] at h
  simp only [parse, stringify, h]
  rfl

end MiniJSON

theorem isWhiteSpace_starts_no_value (c : Char) (h : isWhiteSpace c = true) :
    c ≠ 'n' ∧ c ≠ 't' ∧ c ≠ 'f' ∧ c.toNat ≠ 34 ∧ c ≠ '-' ∧
      ¬ (48 ≤ c.toNat ∧ c.toNat ≤ 57) ∧ c ≠ '[' ∧ c.toNat ≠ 123 := by
  refine ⟨?_, ?_, ?_, ?_, ?_, ?_, ?_, ?_⟩
  · rintro rfl; revert h; decide
  · rintro rfl; revert h; decide
  · rintro rfl; revert h; decide
  · intro hc; simp [isWhiteSpace, hc] at h
  · rintro rfl; revert h; decide
  · intro hc; simp only [isWhiteSpace, Bool.or_eq_true, decide_eq_true_eq, Bool.and_eq_true] at h; omega
  · rintro rfl; revert h; decide
  · intro hc; simp [isWhiteSpace, hc] at h

theorem MiniJSON.skipWs_blank (cs : List Char) (h : ∀ c ∈ cs, isWhiteSpace c = true) :
    ∀ c ∈ MiniJSON.skipWs cs, isWhiteSpace c = true := by
  induction cs with
  | nil => intro c hc; cases hc
  | cons d ds ih =>
    have hds : ∀ c ∈ ds, isWhiteSpace c = true := fun c hc => h c (List.mem_cons_of_mem _ hc)
    unfold MiniJSON.skipWs
    split
    · exact ih hds
    · exact h

theorem MiniJSON.parseValue_blank (fuel : Nat) (cs : List Char)
    (h : ∀ c ∈ cs, isWhiteSpace c = true) : MiniJSON.parseValue fuel cs = none := by
  cases fuel with
  | zero => simp [MiniJSON.parseValue]
  | succ fuel =>
    have hs := MiniJSON.skipWs_blank cs h
    unfold MiniJSON.parseValue
    cases hcs : MiniJSON.skipWs cs with
    | nil => rfl
    | cons c rest =>
      rw [hcs] at hs
      obtain ⟨h₁, h₂, h₃, h₄, h₅, h₆, h₇, h₈⟩ :=
        isWhiteSpace_starts_no_value c (hs c (List.mem_cons_self _ _))
      have h₆' : (decide (48 ≤ c.toNat) && decide (c.toNat ≤ 57)) = false := by
        simpa using h₆
      simp [h₁, h₂, h₃, h₄, h₅, h₆', h₇, h₈]

theorem trim_eq_empty (s : String) (h : trim s = "") : ∀ c ∈ s.data, isWhiteSpace c = true := by
  have hdata : (((s.data.dropWhile isWhiteSpace).reverse).dropWhile isWhiteSpace).reverse = [] :=
    congrArg String.data h
  have hrev : ((s.data.dropWhile isWhiteSpace).reverse).dropWhile isWhiteSpace = [] :=
    List.reverse_eq_nil_iff.mp hdata
  have hall : ∀ c ∈ s.data.dropWhile isWhiteSpace, isWhiteSpace c = true := by
    intro c hc
    exact (List.dropWhile_eq_nil_iff.mp hrev) c (List.mem_reverse.mpr hc)
  have hnil : s.data.dropWhile isWhiteSpace = [] := by
    cases hd : s.data.dropWhile isWhiteSpace with
    | nil => rfl
    | cons c cs =>
      have hhead := List.head_dropWhile_not isWhiteSpace s.data (by rw [hd]; simp)
      simp only [hd, List.head_cons] at hhead
      have := hall c (by rw [hd]; exact List.mem_cons_self _ _)
      rw [this] at hhead
      cases hhead
  exact List.dropWhile_eq_nil_iff.mp hnil

theorem miniJSON_parse_not_blank (s : String) (v : JSValue)
    (h : miniJSON.parse s = .ok v) : trim s ≠ "" := by
  intro hblank
  have hnone := MiniJSON.parseValue_blank (2 * s.data.length + 2) s.data (trim_eq_empty s hblank)
  have hparse : MiniJSON.parse s = .ok v := h
  unfold MiniJSON.parse at hparse
  rw [hnone] at hparse
  cases hparse

/-- The entries array of a mapping with string keys and JSON values is a JSON value. -/
theorem arrayFromEntries_isJSON (entries : List (String × JSValue))
    (h : ∀ e ∈ entries, e.2.isJSON = true) :
    (arrayFromEntries (stringKeyed entries)).isJSON = true := by
  have hall : JSValue.allJSON ((stringKeyed entries).map fun e => .array [e.1, e.2]) = true := by
    induction entries with
    | nil => rfl
    | cons e es ih =>
      have he : e.2.isJSON = true := h e (List.mem_cons_self _ _)
      have hes := ih fun x hx => h x (List.mem_cons_of_mem _ hx)
      simp only [stringKeyed, List.map_cons, List.map_map] at hes ⊢
      simp [JSValue.allJSON, JSValue.isJSON, he, hes]
  simpa [arrayFromEntries, JSValue.isJSON] using hall

/-! ## Claim on `data.js` -/

/-- C10. For JSON built-ins that give back every JSON value they serialise and reject blank
text: (1) if `pdfFiles` is a mapping with pairwise distinct string keys whose values are
JSON values, saving keeps `pdfFiles` as it is and writes a file from which loading,
whatever `pdfFiles` holds at that moment, sets `pdfFiles` to the same entries in the same
order; (2) loading a file whose text is empty or white space only changes nothing;
(3) loading when the file is missing, or holds non-blank text that is not valid JSON,
resets `pdfFiles` to the empty mapping. -/
theorem snapshot_round_trip (json : JSONCodec)
    (hround : ∀ v, v.isJSON = true → json.parse (json.stringify v) = .ok v)
    (hblank : ∀ s v, json.parse s = .ok v → trim s ≠ "") :
    (∀ (entries : List (String × JSValue)) (file : Option String) (current : JSMap),
      (entries.map Prod.fst).Nodup → (∀ e ∈ entries, e.2.isJSON = true) →
      (savedPdfFilesDataToFile json ⟨stringKeyed entries, file⟩).pdfFiles
          = stringKeyed entries ∧
      (loadPdfFilesDataFromFile json
        ⟨current, (savedPdfFilesDataToFile json ⟨stringKeyed entries, file⟩).file⟩).pdfFiles
          = stringKeyed entries ∧
      (loadPdfFilesDataFromFile json
        (savedPdfFilesDataToFile json ⟨stringKeyed entries, file⟩)).pdfFiles
          = stringKeyed entries) ∧
    (∀ (m : JSMap) (data : String), trim data = "" →
      loadPdfFilesDataFromFile json ⟨m, some data⟩ = ⟨m, some data⟩) ∧
    (∀ m : JSMap, (loadPdfFilesDataFromFile json ⟨m, none⟩).pdfFiles = []) ∧
    (∀ (m : JSMap) (data e : String), trim data ≠ "" → json.parse data = .error e →
      (loadPdfFilesDataFromFile json ⟨m, some data⟩).pdfFiles = []) := by
  refine ⟨?_, ?_, ?_, ?_⟩
  · intro entries file current hnodup hvalues
    have hrep := hround _ (arrayFromEntries_isJSON entries hvalues)
    have htrim := hblank _ _ hrep
    refine ⟨rfl, ?_, ?_⟩
    · simp only [savedPdfFilesDataToFile, loadPdfFilesDataFromFile, htrim, if_false, hrep,
        newMap_arrayFromEntries entries hnodup]
    · simp only [savedPdfFilesDataToFile, loadPdfFilesDataFromFile, htrim, if_false, hrep,
        newMap_arrayFromEntries entries hnodup]
  · intro m data hdata
    simp only [loadPdfFilesDataFromFile, hdata, if_true]
  · intro m
    rfl
  · intro m data e hdata hparse
    simp only [loadPdfFilesDataFromFile, hdata, if_false, hparse]

/-- Witness of the snapshot round trip: the small codec, which satisfies both assumptions,
the mapping `a.pdf ↦ {"title":"Manual"}, b.pdf ↦ -12` saved and then loaded while
`pdfFiles` holds the single entry `old.pdf ↦ null`, a file of two spaces and the text
`{"title":`. -/
theorem snapshot_round_trip_witness :
    ((savedPdfFilesDataToFile miniJSON ⟨stringKeyed twoEntries, none⟩).pdfFiles
        = stringKeyed twoEntries ∧
      (loadPdfFilesDataFromFile miniJSON ⟨stringKeyed [("old.pdf", .null)],
        (savedPdfFilesDataToFile miniJSON ⟨stringKeyed twoEntries, none⟩).file⟩).pdfFiles
          = stringKeyed twoEntries ∧
      (loadPdfFilesDataFromFile miniJSON (savedPdfFilesDataToFile miniJSON
        ⟨stringKeyed twoEntries, none⟩)).pdfFiles = stringKeyed twoEntries) ∧
    loadPdfFilesDataFromFile miniJSON ⟨stringKeyed twoEntries, some "  "⟩
      = ⟨stringKeyed twoEntries, some "  "⟩ ∧
    (loadPdfFilesDataFromFile miniJSON ⟨stringKeyed twoEntries, none⟩).pdfFiles = [] ∧
    (loadPdfFilesDataFromFile miniJSON
        ⟨stringKeyed twoEntries, some "\x7b\"title\":"⟩).pdfFiles = [] :=
  have h := snapshot_round_trip miniJSON MiniJSON.parse_stringify miniJSON_parse_not_blank
  ⟨h.1 twoEntries none (stringKeyed [("old.pdf", .null)]) (by decide) (by decide),
    h.2.1 (stringKeyed twoEntries) "  " (by decide),
    h.2.2.1 (stringKeyed twoEntries),
    h.2.2.2 (stringKeyed twoEntries) "\x7b\"title\":" "Unexpected token in JSON" (by decide) rfl⟩

end CamServer
